import Mathlib

/-!
Shallow embedding of `split-real-books.py` (page-range resolution and
document reassembly engine) together with proofs about its behaviour.

Python values that can reach the resolver / validator / orchestrator are
modelled by the inductive `PyVal` below; Python exceptions are modelled by
`Except` results; the filesystem side effects of the extraction and
compilation engines are modelled by the explicit lists of events/artifacts
they produce.  PDF pages are kept abstract (a type parameter `α`): the
program never inspects page contents, it only copies pages around.
-/

deriving instance DecidableEq for Except

namespace SplitRealBooks

/-- A Python value as it can appear in the loaded YAML configuration:
integers, strings, lists, dicts (as ordered key/value pair lists, keys
unique as in Python dicts) and `None`.  Floats, booleans and `bytes` do
not occur in the configurations this program documents and are omitted. -/
inductive PyVal : Type
  | int (n : Int)
  | str (s : String)
  | list (l : List PyVal)
  | dict (kvs : List (PyVal × PyVal))
  | none_

/-- `SongDefinition` from the source: an immutable record of a song name
and the ordered (1-based) page numbers to extract. -/
structure SongDefinition : Type where
  name : String
  pages : List Int
deriving DecidableEq, Repr

/-- The errors `_parse_pages` can raise: `invalidRange` is the
`ValueError("The end of the range cannot be smaller than the start.")`,
`intParse` is the `ValueError` raised by Python's `int()` on a
non-numeric string, `invalidType` is the final `TypeError`. -/
inductive PageErr : Type
  | invalidRange
  | intParse
  | invalidType
deriving DecidableEq, Repr

/-- The errors `_parse_song_definition` can raise: `malformedEntry`
covers both the `TypeError` (entry is not a mapping) and the
`ValueError` (mapping does not have exactly one key); `emptyName` is the
`ValueError("Song names must be non-empty strings.")`; `emptyPages` is
the `ValueError("Song ... does not reference any pages.")`; `pageErr e`
is an error propagated from `_parse_pages`. -/
inductive SongErr : Type
  | malformedEntry
  | emptyName
  | emptyPages
  | pageErr (e : PageErr)
deriving DecidableEq, Repr

/-- The ASCII whitespace characters stripped by Python's `str.strip()`
and by `int()` (space, tab, newline, carriage return, vertical tab,
form feed).  Python also strips some Unicode spaces; the configurations
modelled here only contain ASCII whitespace. -/
def isPySpace (c : Char) : Bool :=
  c = ' ' || c = '\t' || c = '\n' || c = '\r' || c = Char.ofNat 11 || c = Char.ofNat 12

/-- Strip leading and trailing whitespace from a character list, as
Python's `str.strip()` does. -/
def stripChars (cs : List Char) : List Char :=
  ((cs.dropWhile isPySpace).reverse.dropWhile isPySpace).reverse

/-- Python `str.strip()`. -/
def pyStrip (s : String) : String :=
  ⟨stripChars s.data⟩

/-- Numeric value of an ASCII digit character. -/
def digitVal (c : Char) : Nat :=
  c.toNat - 48

/-- Parse a non-empty all-digit character list as a natural number
(the unsigned core of Python's `int()`; underscore digit separators and
non-ASCII digits, which Python also accepts, are not modelled). -/
def parseDigits (cs : List Char) : Option Nat :=
  if cs.isEmpty then none
  else if cs.all Char.isDigit then
    some (cs.foldl (fun a c => a * 10 + digitVal c) 0)
  else none

/-- Python's `int()` applied to a string given as a character list:
strip whitespace, allow one optional sign, then digits; anything else
raises `ValueError`. -/
def pyIntList (cs : List Char) : Option Int :=
  match stripChars cs with
  | '-' :: rest => (parseDigits rest).map (fun n => -(n : Int))
  | '+' :: rest => (parseDigits rest).map (fun n => (n : Int))
  | rest => (parseDigits rest).map (fun n => (n : Int))

/-- Python's `int()` applied to a string. -/
def pyIntOfString (s : String) : Option Int :=
  pyIntList s.data

/-- `spec.split("-", maxsplit=1)` for a string known to contain a `'-'`:
the parts before and after the first `'-'`. -/
def splitFirstDash : List Char → List Char × List Char
  | [] => ([], [])
  | c :: cs =>
      if c = '-' then ([], cs)
      else
        let p := splitFirstDash cs
        (c :: p.1, p.2)

mutual

/-- `_parse_pages` from the source: resolve a page specification plus an
offset into the list of 1-based page numbers.  Integers map to a single
page, strings either to an inclusive `start-end` range (split at the
first `'-'`) or a single page, sequences resolve recursively, anything
else is a `TypeError`. -/
def _parse_pages : PyVal → Int → Except PageErr (List Int)
  | .int n, offset => .ok [n + offset]
  | .str s, offset =>
      let spec := stripChars s.data
      if spec.contains '-' then
        let p := splitFirstDash spec
        match pyIntList p.1, pyIntList p.2 with
        | some start, some stop =>
            if stop < start then .error .invalidRange
            else .ok ((List.range (stop - start + 1).toNat).map
              (fun i => start + Int.ofNat i + offset))
        | _, _ => .error .intParse
      else
        match pyIntList spec with
        | some v => .ok [v + offset]
        | none => .error .intParse
  | .list l, offset => parsePagesList l offset
  | .dict _, _ => .error .invalidType
  | .none_, _ => .error .invalidType

/-- The `pages.extend(...)` loop of `_parse_pages` over a sequence
specification: resolve every element in order and concatenate; the first
raised error propagates. -/
def parsePagesList : List PyVal → Int → Except PageErr (List Int)
  | [], _ => .ok []
  | x :: xs, offset => do
      let h ← _parse_pages x offset
      let t ← parsePagesList xs offset
      .ok (h ++ t)

end

/-- `_parse_song_definition` from the source: validate one raw song
entry (a single-key mapping of a non-empty name to a page spec) into a
`SongDefinition`. -/
def _parse_song_definition (song_data : PyVal) (offset : Int) :
    Except SongErr SongDefinition :=
  match song_data with
  | .dict kvs =>
      match kvs with
      | [(key, page_spec)] =>
          match key with
          | .str name =>
              if pyStrip name = "" then .error .emptyName
              else
                match _parse_pages page_spec offset with
                | .error e => .error (.pageErr e)
                | .ok pages =>
                    if pages.isEmpty then .error .emptyPages
                    else .ok ⟨pyStrip name, pages⟩
          | _ => .error .emptyName
      | _ => .error .malformedEntry
  | _ => .error .malformedEntry

mutual

/-- Python `repr()` restricted to the values of `PyVal` (string escaping
inside quotes is not modelled; configuration strings contain no quotes).
Only used to model the orchestrator's `str(... or "").strip()` for the
abbreviation field. -/
def pyRepr : PyVal → String
  | .int n => toString n
  | .str s => String.singleton (Char.ofNat 39) ++ s ++ String.singleton (Char.ofNat 39)
  | .none_ => "None"
  | .list l => "[" ++ String.intercalate ", " (pyReprList l) ++ "]"
  | .dict kvs => "\x7b" ++ String.intercalate ", " (pyReprKVs kvs) ++ "\x7d"

/-- `repr()` of the elements of a list. -/
def pyReprList : List PyVal → List String
  | [] => []
  | x :: xs => pyRepr x :: pyReprList xs

/-- `repr()` of the `key: value` pairs of a dict. -/
def pyReprKVs : List (PyVal × PyVal) → List String
  | [] => []
  | kv :: xs => (pyRepr kv.1 ++ ": " ++ pyRepr kv.2) :: pyReprKVs xs

end

/-- Python `str()` on a `PyVal` (same as `repr()` except on strings). -/
def pyStr : PyVal → String
  | .str s => s
  | v => pyRepr v

/-- Python truthiness of a `PyVal`. -/
def pyTruthy : PyVal → Bool
  | .int n => n != 0
  | .str s => !s.isEmpty
  | .list l => !l.isEmpty
  | .dict kvs => !kvs.isEmpty
  | .none_ => false

/-- Python `int(x)` as used for the `offset` configuration value:
integers are returned as-is, strings are parsed, everything else raises
(`TypeError`), modelled as `none`. -/
def pyToInt : PyVal → Option Int
  | .int n => some n
  | .str s => pyIntOfString s
  | _ => none

/-- Python `dict.get(key)` for a dict with string keys: the value of the
first (in Python the unique) entry whose key is the string `key`. -/
def dictGet (kvs : List (PyVal × PyVal)) (key : String) : Option PyVal :=
  (kvs.find? (fun kv => match kv.1 with | .str s => s == key | _ => false)).map
    (fun kv => kv.2)

/-- What `main`'s per-entry loop body does with one configuration entry:
either skip it at one of the validation steps (in source order) or reach
the call to `extract_songs_from_pdf` with the given arguments. -/
inductive EntryOutcome : Type
  | notMapping
  | missingKey (key : String)
  | badPath
  | songsNotList
  | badOffset
  | badOutputDir
  | noValidSongs
  | extracted (file : String) (offset : Int) (songs : List SongDefinition)
      (outputDir : String) (abbreviation : String)
deriving DecidableEq, Repr

/-- The tail of `main`'s per-entry loop body once the offset has been
parsed: resolve the output directory, the abbreviation and the song
definitions, then either skip (no valid song) or extract. -/
def entryWithOffset (kvs : List (PyVal × PyVal)) (file : String)
    (songsData : List PyVal) (offset : Int) : EntryOutcome :=
  match (dictGet kvs "output_directory").getD (.str "output_songs") with
  | .str outputDir =>
      let abbrRaw := (dictGet kvs "abbreviation").getD (.str "")
      let abbreviation := pyStrip (pyStr (if pyTruthy abbrRaw then abbrRaw else .str ""))
      let songs := songsData.filterMap
        (fun sd => (_parse_song_definition sd offset).toOption)
      if songs.isEmpty then .noValidSongs
      else .extracted file offset songs outputDir abbreviation
  | _ => .badOutputDir

/-- `main`'s per-entry loop body (lines 169-259 of the source): the
sequence of validation steps applied to one configuration entry, in
source order, ending either in a skip or in the extraction call. -/
def processEntry (entry : PyVal) : EntryOutcome :=
  match entry with
  | .dict kvs =>
      match dictGet kvs "file" with
      | none => .missingKey "file"
      | some fileRaw =>
          match dictGet kvs "songs" with
          | none => .missingKey "songs"
          | some songsData =>
              match fileRaw with
              | .str file =>
                  match songsData with
                  | .list songsList =>
                      match pyToInt ((dictGet kvs "offset").getD (.int 0)) with
                      | none => .badOffset
                      | some offset => entryWithOffset kvs file songsList offset
                  | _ => .songsNotList
              | _ => .badPath
  | _ => .notMapping

/-- One observable event of the per-song loop of
`extract_songs_from_pdf`: either an output file was written or the
bounds-check error was logged for a song. -/
inductive ExtractEvent (α : Type) : Type
  | wrote (filename : String) (pages : List α)
  | boundsError (page : Int) (songName : String)
deriving DecidableEq, Repr

/-- The output filename for one song: `"{name}.pdf"`, or
`"{name} ({abbreviation}).pdf"` when the abbreviation is non-empty. -/
def songFilename (song : SongDefinition) (abbreviation : String) : String :=
  if abbreviation ≠ "" then song.name ++ " (" ++ abbreviation ++ ").pdf"
  else song.name ++ ".pdf"

/-- The per-song loop of `extract_songs_from_pdf` (lines 118-145 of the
source).  The source document is the list of its pages; the filesystem
effects are returned as the ordered list of per-song events.  For each
song: find the first page outside `[1, total_pages]` (the `next(...)`
expression) and log a bounds error if there is one, otherwise write a
document holding copies of source pages `p-1` (0-based) in page-list
order. -/
def extract_songs_from_pdf {α : Type} [Inhabited α] (sourcePages : List α) :
    List SongDefinition → String → List (ExtractEvent α)
  | [], _ => []
  | song :: rest, abbreviation =>
      (match song.pages.find?
          (fun p => decide (p < 1) || decide ((sourcePages.length : Int) < p)) with
       | some p => ExtractEvent.boundsError p song.name
       | none => ExtractEvent.wrote (songFilename song abbreviation)
           (song.pages.map (fun p => sourcePages.getD (p - 1).toNat default)))
      :: extract_songs_from_pdf sourcePages rest abbreviation

/-- One PDF file discovered by `compile_directory`'s `rglob`: its
resolved absolute path, its stem (base name, extension stripped) and its
pages. -/
structure PFile (α : Type) : Type where
  resolvedPath : String
  stem : String
  pages : List α
deriving DecidableEq, Repr

/-- Python `str.casefold()` restricted to ASCII (where it coincides with
lower-casing; the full Unicode case folding is not modelled). -/
def casefold (s : String) : String :=
  ⟨s.data.map Char.toLower⟩

/-- The sort order of `pdf_files.sort(key=lambda path: path.stem.casefold())`:
case-insensitive comparison of the stems, strings being compared
lexicographically by code point as in Python. -/
def fileLe {α : Type} (a b : PFile α) : Prop :=
  (casefold a.stem).data ≤ (casefold b.stem).data

instance {α : Type} : DecidableRel (α := PFile α) fileLe :=
  fun _ _ => inferInstanceAs (Decidable (_ ≤ _))

instance {α : Type} : IsTotal (PFile α) fileLe :=
  ⟨fun _ _ => le_total _ _⟩

instance {α : Type} : IsTrans (PFile α) fileLe :=
  ⟨fun _ _ _ h h2 => le_trans h h2⟩

/-- The sort of the discovered files by case-folded stem.  Insertion
sort is stable, like Python's `list.sort`. -/
def sortFiles {α : Type} (files : List (PFile α)) : List (PFile α) :=
  List.insertionSort fileLe files

/-- Lines 353-360 of the source: the discovered files minus any file
resolving to the output path, sorted by case-folded stem. -/
def pdfFilesFor {α : Type} (outputPath : String) (candidates : List (PFile α)) :
    List (PFile α) :=
  sortFiles (candidates.filter (fun c => c.resolvedPath != outputPath))

/-- The result of `compile_directory`: either the no-PDFs warning (and
no output written) or the written output document — its pages and its
outline, an ordered list of (label, destination page index) pairs. -/
inductive CompileOutcome (α : Type) : Type
  | noPdfs
  | written (pages : List α) (outline : List (String × Nat))
deriving DecidableEq, Repr

/-- The page transform applied while appending: `compress_content_streams`
(kept abstract as `compressPage`) when `--compress` was given, the
identity otherwise. -/
def pageStep {α : Type} (compress : Bool) (compressPage : α → α) : α → α :=
  fun p => if compress then compressPage p else p

/-- The per-file loop of `compile_directory` (lines 370-388): skip
zero-page files; otherwise record the current output length as the
file's destination index, append the (possibly compressed) pages, and
append one outline entry. -/
def compileLoop {α : Type} (step : α → α) :
    List (PFile α) → List α → List (String × Nat) → List α × List (String × Nat)
  | [], pages, outline => (pages, outline)
  | f :: fs, pages, outline =>
      if f.pages.isEmpty then compileLoop step fs pages outline
      else compileLoop step fs (pages ++ f.pages.map step)
        (outline ++ [(f.stem, pages.length)])

/-- `compile_directory` from the source, with every file readable: the
directory's discovered PDF candidates are given as a list, the
filesystem write is the returned outcome. -/
def compile_directory {α : Type} (compress : Bool) (compressPage : α → α)
    (outputPath : String) (candidates : List (PFile α)) : CompileOutcome α :=
  let files := pdfFilesFor outputPath candidates
  if files.isEmpty then .noPdfs
  else
    let r := compileLoop (pageStep compress compressPage) files [] []
    .written r.1 r.2

/-- A discovered PDF file whose reading may fail: `readPages` is
`.error msg` when `open`/`PdfReader` raises on this file (unreadable or
malformed), `.ok pages` otherwise. -/
structure PFileE (α : Type) : Type where
  resolvedPath : String
  stem : String
  readPages : Except String (List α)
deriving Repr

/-- `fileLe` for fallible files. -/
def fileLeE {α : Type} (a b : PFileE α) : Prop :=
  (casefold a.stem).data ≤ (casefold b.stem).data

instance {α : Type} : DecidableRel (α := PFileE α) fileLeE :=
  fun _ _ => inferInstanceAs (Decidable (_ ≤ _))

/-- `sortFiles` for fallible files. -/
def sortFilesE {α : Type} (files : List (PFileE α)) : List (PFileE α) :=
  List.insertionSort fileLeE files

/-- The per-file loop of `compile_directory` with fallible reads: the
loop body has no exception handler, so the first failing
`open`/`PdfReader` aborts the whole loop (the `Except` bind), exactly as
the uncaught Python exception does. -/
def compileLoopE {α : Type} (step : α → α) :
    List (PFileE α) → List α → List (String × Nat) →
      Except String (List α × List (String × Nat))
  | [], pages, outline => .ok (pages, outline)
  | f :: fs, pages, outline =>
      match f.readPages with
      | .error e => .error e
      | .ok pg =>
          if pg.isEmpty then compileLoopE step fs pages outline
          else
            compileLoopE step fs (pages ++ pg.map step) (outline ++ [(f.stem, pages.length)])

/-- `compile_directory` refined with fallible file reads: identical to
`compile_directory` except that reading a candidate file may raise, in
which case the exception propagates out of the function before anything
is written. -/
def compile_directoryE {α : Type} (compress : Bool) (compressPage : α → α)
    (outputPath : String) (candidates : List (PFileE α)) :
    Except String (CompileOutcome α) :=
  let files := sortFilesE (candidates.filter (fun c => c.resolvedPath != outputPath))
  if files.isEmpty then .ok .noPdfs
  else do
    let r ← compileLoopE (pageStep compress compressPage) files [] []
    .ok (.written r.1 r.2)

/-- The fate of one directory in `compile_directories`: the per-directory
`try/except` turns an exception escaping `compile_directory` into a
logged failure for that whole directory. -/
inductive DirOutcome (α : Type) : Type
  | failed (message : String)
  | done (result : CompileOutcome α)
deriving DecidableEq, Repr

/-- `compile_directories` from the source (lines 327-342): each
directory is given as its output path together with its discovered
candidate files; the `except Exception` handler confines a failure to
the directory in which it was raised. -/
def compile_directories {α : Type} (compress : Bool) (compressPage : α → α)
    (dirs : List (String × List (PFileE α))) : List (DirOutcome α) :=
  dirs.map (fun d =>
    match compile_directoryE compress compressPage d.1 d.2 with
    | .error msg => .failed msg
    | .ok r => .done r)

/-- The outline produced by `compileLoop` over all-non-empty files,
starting from an output that already holds `n` pages: one entry per
file, labelled with its stem, whose destination index is the number of
pages appended before it. -/
def outlineFrom {α : Type} (n : Nat) : List (PFile α) → List (String × Nat)
  | [] => []
  | f :: fs => (f.stem, n) :: outlineFrom (n + f.pages.length) fs

/-! ### Helper lemmas -/

theorem dropWhile_eq_self_of_not {p : Char → Bool} :
    ∀ {cs : List Char}, (∀ c ∈ cs, p c = false) → cs.dropWhile p = cs
  | [], _ => rfl
  | c :: cs, h => by simp [List.dropWhile, h c (by simp)]

theorem stripChars_eq_self {cs : List Char} (h : ∀ c ∈ cs, isPySpace c = false) :
    stripChars cs = cs := by
  unfold stripChars
  rw [dropWhile_eq_self_of_not h, dropWhile_eq_self_of_not, List.reverse_reverse]
  intro c hc
  exact h c (by simpa using hc)

theorem splitFirstDash_append :
    ∀ (l r : List Char), '-' ∉ l → splitFirstDash (l ++ '-' :: r) = (l, r)
  | [], r, _ => by simp [splitFirstDash]
  | c :: l, r, h => by
    have hc : ¬ c = '-' := fun hh => h (by simp [hh])
    have h' : '-' ∉ l := fun hm => h (List.mem_cons_of_mem c hm)
    show (if c = '-' then ([], l ++ '-' :: r)
      else (c :: (splitFirstDash (l ++ '-' :: r)).1,
        (splitFirstDash (l ++ '-' :: r)).2)) = (c :: l, r)
    rw [if_neg hc, splitFirstDash_append l r h']

theorem dash_mem_append (l r : List Char) : (l ++ '-' :: r).contains '-' = true := by
  rw [List.elem_iff]
  simp

/-- C3, range case.  The claim as frozen quantifies over all integers
`a`, `b`; it fails when `a` is negative (see the counterexample), so
this theorem states it for range strings `"a-b"` whose start literal
contains no minus sign (equivalently, `a ≥ 0`), the end literal being an
arbitrary integer literal.  The literals are quantified as the strings
`sa`, `sb` together with the integers they parse to. -/
theorem parse_pages_range (sa sb : String) (a b offset : Int)
    (hsa : pyIntList sa.data = some a) (hsb : pyIntList sb.data = some b)
    (hdash : '-' ∉ sa.data)
    (hwsa : ∀ c ∈ sa.data, isPySpace c = false)
    (hwsb : ∀ c ∈ sb.data, isPySpace c = false) :
    (b < a → _parse_pages (.str (sa ++ "-" ++ sb)) offset = .error .invalidRange) ∧
    (a ≤ b → ∃ l, _parse_pages (.str (sa ++ "-" ++ sb)) offset = .ok l ∧
      l.length = (b - a + 1).toNat ∧
      ∀ i, i < l.length → l.get? i = some (a + offset + i)) := by
  have hdata : (sa ++ "-" ++ sb).data = sa.data ++ '-' :: sb.data := by
    have hm : ("-" : String).data = ['-'] := rfl
    rw [String.data_append, String.data_append, hm]
    simp
  have hspace : ∀ c ∈ sa.data ++ '-' :: sb.data, isPySpace c = false := by
    intro c hc
    rcases List.mem_append.mp hc with h | h
    · exact hwsa c h
    · rcases List.mem_cons.mp h with h | h
      · subst h; rfl
      · exact hwsb c h
  have hstrip : stripChars (sa ++ "-" ++ sb).data = sa.data ++ '-' :: sb.data := by
    rw [hdata]; exact stripChars_eq_self hspace
  have hsplit : splitFirstDash (sa.data ++ '-' :: sb.data) = (sa.data, sb.data) :=
    splitFirstDash_append sa.data sb.data hdash
  have heq : _parse_pages (.str (sa ++ "-" ++ sb)) offset =
      (if b < a then .error .invalidRange
       else .ok ((List.range (b - a + 1).toNat).map
         (fun i => a + Int.ofNat i + offset))) := by
    rw [_parse_pages]
    simp only [hstrip, dash_mem_append, if_true, hsplit, hsa, hsb]
  constructor
  · intro h
    rw [heq, if_pos h]
  · intro h
    rw [heq, if_neg (not_lt.mpr h)]
    refine ⟨_, rfl, by simp, ?_⟩
    intro i hi
    simp only [List.length_map, List.length_range] at hi
    have hv : ((List.range (b - a + 1).toNat).map
        (fun i => a + Int.ofNat i + offset)).get? i =
        some (a + Int.ofNat i + offset) := by
      rw [List.get?_map, List.get?_range hi]; rfl
    have hcast : Int.ofNat i = (i : Int) := rfl
    rw [hv, hcast]
    congr 1
    omega

/-- C3 counterexample: for the range string `"-3--1"` (start `-3`, end
`-1`, so `b >= a`) the code does not return the pages `[-3,-2,-1]` and
does not raise `InvalidRangeError`: splitting at the first `'-'` leaves
an empty start literal, so `int("")` raises a plain integer-parse
`ValueError`. -/
theorem parse_pages_negative_range_counterexample :
    _parse_pages (.str "-3--1") 0 = .error .intParse := by decide

/-- Closed witness for `parse_pages_range` at `"3-5"` with offset 10. -/
theorem parse_pages_range_witness :
    ((5 : Int) < 3 → _parse_pages (.str "3-5") 10 = .error .invalidRange) ∧
    ((3 : Int) ≤ 5 → ∃ l, _parse_pages (.str "3-5") 10 = .ok l ∧
      l.length = ((5 : Int) - 3 + 1).toNat ∧
      ∀ i, i < l.length → l.get? i = some (3 + 10 + i)) :=
  parse_pages_range "3" "5" 3 5 10 rfl rfl (by decide) (by decide) (by decide)

/-- C8: a collection page specification resolves every element
recursively and concatenates the results in element order (the first
element error propagating, as the raised exception does), and the
spec's example `resolve([1, "3-4", 2], 0) == [1, 3, 4, 2]` holds. -/
theorem parse_pages_collection_flatten :
    (∀ (l : List PyVal) (offset : Int),
      _parse_pages (.list l) offset =
        (l.mapM (fun spec => _parse_pages spec offset)).map List.flatten) ∧
    _parse_pages (.list [.int 1, .str "3-4", .int 2]) 0 = .ok [1, 3, 4, 2] := by
  constructor
  · intro l offset
    rw [_parse_pages]
    induction l with
    | nil => rw [List.mapM_nil]; rfl
    | cons x xs ih =>
        rw [List.mapM_cons, parsePagesList]
        cases hx : _parse_pages x offset with
        | error e => rfl
        | ok h =>
            rw [ih]
            cases hm : xs.mapM (fun spec => _parse_pages spec offset) with
            | error e => rfl
            | ok rest => rfl
  · decide

/-- C10 as amended: any spec string whose stripped form begins with
`'-'` (in particular a negative single page such as `"-3"`) fails with
an integer-parse error, because the split at the first `'-'` leaves an
empty start literal; `"10-12-14"` (second part not an integer literal)
also fails with an integer-parse error; but a multi-separator string
whose part after the first `'-'` parses as an integer fails with
`InvalidRangeError` instead (`"1--2"`), since that part then denotes a
negative end. -/
theorem parse_pages_dash_handling :
    (∀ (s : String) (offset : Int),
      (stripChars s.data).head? = some '-' →
      _parse_pages (.str s) offset = .error .intParse) ∧
    _parse_pages (.str "-3") 0 = .error .intParse ∧
    _parse_pages (.str "10-12-14") 0 = .error .intParse ∧
    _parse_pages (.str "1--2") 0 = .error .invalidRange := by
  refine ⟨?_, by decide, by decide, by decide⟩
  intro s offset hhead
  obtain ⟨rest, hrest⟩ : ∃ rest, stripChars s.data = '-' :: rest := by
    cases h : stripChars s.data with
    | nil => rw [h] at hhead; cases hhead
    | cons c cs =>
        rw [h] at hhead
        simp only [List.head?] at hhead
        exact ⟨cs, by rw [Option.some_inj] at hhead; rw [hhead]⟩
  have hcontains : ('-' :: rest).contains '-' = true := by
    rw [List.elem_iff]; simp
  have hsplit : splitFirstDash ('-' :: rest) = ([], rest) := by
    simp [splitFirstDash]
  have hleft : pyIntList [] = none := rfl
  rw [_parse_pages]
  simp only [hrest, hcontains, if_true, hsplit, hleft]

/-- C10 counterexample: the frozen claim says a string with multiple
separators never fails with `InvalidRangeError`, but `"1--2"` does
(split at the first `'-'` gives start `1` and end `-2 < 1`). -/
theorem parse_pages_dash_counterexample :
    _parse_pages (.str "1--2") 0 = .error .invalidRange := by decide

/-- Closed witness for `parse_pages_dash_handling` at `" -7"`. -/
theorem parse_pages_dash_handling_witness :
    _parse_pages (.str " -7") 4 = .error .intParse :=
  parse_pages_dash_handling.1 " -7" 4 (by decide)

/-- C9 as amended: the validator fails with the malformed-entry error
when the raw entry is not a mapping or has a key count other than one,
with the empty-name error when the name is a string that is empty after
trimming, with the empty-pages error when page resolution succeeds with
zero pages; when page resolution itself fails its error propagates
(amendment forced by the counterexample); otherwise it returns the
`SongDefinition` with the trimmed name and the resolved pages. -/
theorem parse_song_definition_spec :
    (∀ (entry : PyVal) (offset : Int), (∀ kvs, entry ≠ .dict kvs) →
      _parse_song_definition entry offset = .error .malformedEntry) ∧
    (∀ (kvs : List (PyVal × PyVal)) (offset : Int), kvs.length ≠ 1 →
      _parse_song_definition (.dict kvs) offset = .error .malformedEntry) ∧
    (∀ (name : String) (spec : PyVal) (offset : Int), pyStrip name = "" →
      _parse_song_definition (.dict [(.str name, spec)]) offset = .error .emptyName) ∧
    (∀ (name : String) (spec : PyVal) (offset : Int) (e : PageErr),
      pyStrip name ≠ "" → _parse_pages spec offset = .error e →
      _parse_song_definition (.dict [(.str name, spec)]) offset =
        .error (.pageErr e)) ∧
    (∀ (name : String) (spec : PyVal) (offset : Int),
      pyStrip name ≠ "" → _parse_pages spec offset = .ok [] →
      _parse_song_definition (.dict [(.str name, spec)]) offset =
        .error .emptyPages) ∧
    (∀ (name : String) (spec : PyVal) (offset : Int) (pages : List Int),
      pyStrip name ≠ "" → _parse_pages spec offset = .ok pages → pages ≠ [] →
      _parse_song_definition (.dict [(.str name, spec)]) offset =
        .ok ⟨pyStrip name, pages⟩) := by
  refine ⟨?_, ?_, ?_, ?_, ?_, ?_⟩
  · intro entry offset h
    cases entry with
    | dict kvs => exact absurd rfl (h kvs)
    | int n => rfl
    | str s => rfl
    | list l => rfl
    | none_ => rfl
  · intro kvs offset h
    match kvs with
    | [] => rfl
    | [(k, v)] => simp at h
    | (k₁, v₁) :: (k₂, v₂) :: rest => rfl
  · intro name spec offset h
    simp [_parse_song_definition, h]
  · intro name spec offset e hn hp
    simp [_parse_song_definition, hn, hp]
  · intro name spec offset hn hp
    simp [_parse_song_definition, hn, hp]
  · intro name spec offset pages hn hp hne
    simp [_parse_song_definition, hn, hp, hne]

/-- C9 counterexample: the entry `{"A": "5-3"}` is a single-key mapping
with a non-empty name, and page resolution does not "yield zero pages"
— it raises `InvalidRangeError` — so by the frozen claim the validator
would have to return a `SongDefinition`; instead the resolver error
propagates. -/
theorem parse_song_definition_counterexample :
    _parse_song_definition (.dict [(.str "A", .str "5-3")]) 0 =
      .error (.pageErr .invalidRange) := by decide

/-- Closed witness for `parse_song_definition_spec`: the happy path at
the entry `{" A ": 2}` with offset 1. -/
theorem parse_song_definition_spec_witness :
    _parse_song_definition (.dict [(.str " A ", .int 2)]) 1 = .ok ⟨"A", [3]⟩ :=
  parse_song_definition_spec.2.2.2.2.2 " A " (.int 2) 1 [3]
    (by decide) (by decide) (by decide)

/-- C7 as amended: the orchestrator skips an entry at the offset step
exactly when Python integer conversion of the offset value fails (which
is not the same as the value not being an integer: numeric strings
convert and are accepted — see the counterexample); when conversion
succeeds the entry proceeds with the converted offset, and a missing
offset key proceeds with the default 0. -/
theorem processEntry_offset_spec :
    (∀ (kvs : List (PyVal × PyVal)) (file : String) (songsList : List PyVal)
        (v : PyVal),
      dictGet kvs "file" = some (.str file) →
      dictGet kvs "songs" = some (.list songsList) →
      dictGet kvs "offset" = some v → pyToInt v = none →
      processEntry (.dict kvs) = .badOffset) ∧
    (∀ (kvs : List (PyVal × PyVal)) (file : String) (songsList : List PyVal)
        (v : PyVal) (n : Int),
      dictGet kvs "file" = some (.str file) →
      dictGet kvs "songs" = some (.list songsList) →
      dictGet kvs "offset" = some v → pyToInt v = some n →
      processEntry (.dict kvs) = entryWithOffset kvs file songsList n) ∧
    (∀ (kvs : List (PyVal × PyVal)) (file : String) (songsList : List PyVal),
      dictGet kvs "file" = some (.str file) →
      dictGet kvs "songs" = some (.list songsList) →
      dictGet kvs "offset" = none →
      processEntry (.dict kvs) = entryWithOffset kvs file songsList 0) := by
  refine ⟨?_, ?_, ?_⟩
  · intro kvs file songsList v hf hs ho hv
    simp [processEntry, hf, hs, ho, hv]
  · intro kvs file songsList v n hf hs ho hv
    simp [processEntry, hf, hs, ho, hv]
  · intro kvs file songsList hf hs ho
    simp [processEntry, hf, hs, ho, pyToInt]

/-- C7 counterexample: an entry whose `offset` value is the string
`"5"` — not an integer — is not skipped: `int("5")` succeeds and the
entry reaches extraction with offset 5 (song page 1 becomes 6). -/
theorem processEntry_string_offset_counterexample :
    processEntry (.dict [(.str "file", .str "book.pdf"),
        (.str "songs", .list [.dict [(.str "A", .int 1)]]),
        (.str "offset", .str "5")]) =
      .extracted "book.pdf" 5 [⟨"A", [6]⟩] "output_songs" "" := by decide

/-- Closed witness for `processEntry_offset_spec`: an entry without an
`offset` key proceeds with the default offset 0. -/
theorem processEntry_offset_spec_witness :
    processEntry (.dict [(.str "file", .str "b.pdf"), (.str "songs", .list [])]) =
      entryWithOffset [(.str "file", .str "b.pdf"), (.str "songs", .list [])]
        "b.pdf" [] 0 :=
  processEntry_offset_spec.2.2 _ "b.pdf" [] rfl rfl rfl

theorem extract_songs_from_pdf_append {α : Type} [Inhabited α]
    (sourcePages : List α) (abbreviation : String) :
    ∀ (l₁ l₂ : List SongDefinition),
      extract_songs_from_pdf sourcePages (l₁ ++ l₂) abbreviation =
        extract_songs_from_pdf sourcePages l₁ abbreviation ++
          extract_songs_from_pdf sourcePages l₂ abbreviation
  | [], l₂ => rfl
  | song :: rest, l₂ => by
      simp [extract_songs_from_pdf,
        extract_songs_from_pdf_append sourcePages abbreviation rest l₂]

/-- C1: for a song all of whose pages lie in `[1, N]`, extraction
writes one output document with exactly one page per entry of the
song's page list — the `i`-th output page being a copy of source page
`p_i` (storage index `p_i - 1`), duplicates and order preserved. -/
theorem extract_songs_inbounds {α : Type} [Inhabited α] (sourcePages : List α)
    (song : SongDefinition) (abbreviation : String)
    (hin : ∀ p ∈ song.pages, 1 ≤ p ∧ p ≤ (sourcePages.length : Int)) :
    ∃ out, extract_songs_from_pdf sourcePages [song] abbreviation =
        [.wrote (songFilename song abbreviation) out] ∧
      out.length = song.pages.length ∧
      ∀ i (hi : i < song.pages.length),
        out.get? i = sourcePages.get? (song.pages.get ⟨i, hi⟩ - 1).toNat := by
  have hfind : song.pages.find?
      (fun p => decide (p < 1) || decide ((sourcePages.length : Int) < p)) = none := by
    rw [List.find?_eq_none]
    intro p hp
    have := hin p hp
    simp only [Bool.or_eq_true, decide_eq_true_eq]
    omega
  refine ⟨song.pages.map (fun p => sourcePages.getD (p - 1).toNat default),
    ?_, by simp, ?_⟩
  · simp only [extract_songs_from_pdf, hfind]
  · intro i hi
    have hpmem : song.pages.get ⟨i, hi⟩ ∈ song.pages := List.get_mem _ _ _
    have hbound := hin _ hpmem
    have hidx : (song.pages.get ⟨i, hi⟩ - 1).toNat < sourcePages.length := by omega
    have hsrc : sourcePages.get? (song.pages.get ⟨i, hi⟩ - 1).toNat =
        some (sourcePages.get ⟨(song.pages.get ⟨i, hi⟩ - 1).toNat, hidx⟩) :=
      List.get?_eq_get hidx
    have hgetD : sourcePages.getD (song.pages.get ⟨i, hi⟩ - 1).toNat default =
        sourcePages.get ⟨(song.pages.get ⟨i, hi⟩ - 1).toNat, hidx⟩ := by
      rw [List.getD_eq_get?, hsrc]; rfl
    rw [List.get?_map, List.get?_eq_get hi, hsrc]
    exact congrArg some hgetD

/-- Closed witness for `extract_songs_inbounds`: the spec's example, a
song `{"Intro": [1,1,2]}` over a two-page source. -/
theorem extract_songs_inbounds_witness :
    ∃ out, extract_songs_from_pdf [10, 20] [⟨"Intro", [1, 1, 2]⟩] "" =
        [.wrote (songFilename ⟨"Intro", [1, 1, 2]⟩ "") out] ∧
      out.length = ([1, 1, 2] : List Int).length ∧
      ∀ i (hi : i < ([1, 1, 2] : List Int).length),
        out.get? i = ([10, 20] : List Nat).get?
          ((([1, 1, 2] : List Int).get ⟨i, hi⟩ - 1).toNat) :=
  extract_songs_inbounds [10, 20] ⟨"Intro", [1, 1, 2]⟩ "" (by decide)

/-- C4: a song with an out-of-bounds page only contributes a logged
bounds error naming its first invalid page; the events of all songs
before and after it are exactly what they would be on their own, so a
bad song never aborts the rest of the batch. -/
theorem extract_songs_skip_bad {α : Type} [Inhabited α] (sourcePages : List α)
    (pre post : List SongDefinition) (bad : SongDefinition)
    (abbreviation : String)
    (hbad : ∃ p ∈ bad.pages, p < 1 ∨ (sourcePages.length : Int) < p) :
    ∃ p, p ∈ bad.pages ∧ (p < 1 ∨ (sourcePages.length : Int) < p) ∧
      extract_songs_from_pdf sourcePages (pre ++ bad :: post) abbreviation =
        extract_songs_from_pdf sourcePages pre abbreviation ++
          .boundsError p bad.name ::
            extract_songs_from_pdf sourcePages post abbreviation := by
  have hsome : (bad.pages.find?
      (fun p => decide (p < 1) || decide ((sourcePages.length : Int) < p))).isSome := by
    rw [List.find?_isSome]
    obtain ⟨p, hp, hout⟩ := hbad
    exact ⟨p, hp, by simp only [Bool.or_eq_true, decide_eq_true_eq]; omega⟩
  obtain ⟨p, hfind⟩ := Option.isSome_iff_exists.mp hsome
  have hmem : p ∈ bad.pages := List.mem_of_find?_eq_some hfind
  have hpred := List.find?_some hfind
  simp only [Bool.or_eq_true, decide_eq_true_eq] at hpred
  refine ⟨p, hmem, hpred, ?_⟩
  rw [extract_songs_from_pdf_append]
  simp only [extract_songs_from_pdf, hfind]

/-- Closed witness for `extract_songs_skip_bad`: a 20-page source, a
song with page 25 between two valid songs. -/
theorem extract_songs_skip_bad_witness :
    ∃ p, p ∈ ([25] : List Int) ∧ (p < 1 ∨ ((List.range 20).length : Int) < p) ∧
      extract_songs_from_pdf (List.range 20)
          ([⟨"A", [1]⟩] ++ ⟨"Bad", [25]⟩ :: [⟨"B", [2]⟩]) "" =
        extract_songs_from_pdf (List.range 20) [⟨"A", [1]⟩] "" ++
          .boundsError p "Bad" ::
            extract_songs_from_pdf (List.range 20) [⟨"B", [2]⟩] "" :=
  extract_songs_skip_bad (List.range 20) [⟨"A", [1]⟩] [⟨"B", [2]⟩]
    ⟨"Bad", [25]⟩ "" ⟨25, by decide, by decide⟩

theorem compileLoop_all_nonempty {α : Type} (step : α → α) :
    ∀ (fs : List (PFile α)) (pages : List α) (outline : List (String × Nat)),
      (∀ f ∈ fs, f.pages ≠ []) →
      compileLoop step fs pages outline =
        (pages ++ fs.bind (fun f => f.pages.map step),
         outline ++ outlineFrom pages.length fs)
  | [], pages, outline, _ => by simp [compileLoop, outlineFrom]
  | f :: fs, pages, outline, h => by
      have hf : f.pages.isEmpty = false := by
        simp [List.isEmpty_iff, h f (by simp)]
      rw [compileLoop, hf]
      simp only [Bool.false_eq_true, if_false]
      rw [compileLoop_all_nonempty step fs _ _ (fun g hg => h g (by simp [hg]))]
      simp [outlineFrom, List.append_assoc]

theorem outlineFrom_length {α : Type} :
    ∀ (fs : List (PFile α)) (n : Nat), (outlineFrom n fs).length = fs.length
  | [], _ => rfl
  | f :: fs, n => by simp [outlineFrom, outlineFrom_length fs]

theorem outlineFrom_get? {α : Type} :
    ∀ (fs : List (PFile α)) (n : Nat) (i : Nat) (hi : i < fs.length),
      (outlineFrom n fs).get? i =
        some ((fs.get ⟨i, hi⟩).stem,
          n + ((fs.take i).bind (fun f => f.pages)).length)
  | [], _, i, hi => by cases hi
  | f :: fs, n, 0, _ => by simp [outlineFrom]
  | f :: fs, n, i + 1, hi => by
      have hi' : i < fs.length := by simpa using hi
      have htake : (((f :: fs).take (i + 1)).bind (fun f => f.pages)) =
          f.pages ++ (fs.take i).bind (fun f => f.pages) := by
        simp
      have h0 : (outlineFrom n (f :: fs)).get? (i + 1) =
          (outlineFrom (n + f.pages.length) fs).get? i := rfl
      have h1 : ((f :: fs).get ⟨i + 1, hi⟩) = fs.get ⟨i, hi'⟩ := rfl
      rw [h0, outlineFrom_get? fs (n + f.pages.length) i hi', htake,
        List.length_append, h1, Nat.add_assoc]

/-- C2: when every discovered candidate is distinct from the output
file and has at least one page, `compile_directory` uses exactly the
candidates sorted case-insensitively by stem (a permutation of the
candidates, sorted under `fileLe`), appends their pages in that order,
and emits one outline entry per file, labelled with its stem, whose
destination index is the number of pages appended before the file. -/
theorem compile_directory_sorted {α : Type} (compress : Bool)
    (compressPage : α → α) (outputPath : String) (candidates : List (PFile α))
    (hout : ∀ f ∈ candidates, f.resolvedPath ≠ outputPath)
    (hpages : ∀ f ∈ candidates, f.pages ≠ [])
    (hne : candidates ≠ []) :
    List.Perm (pdfFilesFor outputPath candidates) candidates ∧
    List.Sorted fileLe (pdfFilesFor outputPath candidates) ∧
    compile_directory compress compressPage outputPath candidates =
      .written
        ((pdfFilesFor outputPath candidates).bind
          (fun f => f.pages.map (pageStep compress compressPage)))
        (outlineFrom 0 (pdfFilesFor outputPath candidates)) ∧
    ∀ i (hi : i < (pdfFilesFor outputPath candidates).length),
      (outlineFrom 0 (pdfFilesFor outputPath candidates)).get? i =
        some (((pdfFilesFor outputPath candidates).get ⟨i, hi⟩).stem,
          (((pdfFilesFor outputPath candidates).take i).bind
            (fun f => f.pages)).length) := by
  have hfilter : candidates.filter (fun c => c.resolvedPath != outputPath) =
      candidates := by
    rw [List.filter_eq_self]
    intro f hf
    simpa using hout f hf
  have hperm : List.Perm (pdfFilesFor outputPath candidates) candidates := by
    rw [pdfFilesFor, hfilter]
    exact List.perm_insertionSort fileLe candidates
  have hmem : ∀ f ∈ pdfFilesFor outputPath candidates, f.pages ≠ [] :=
    fun f hf => hpages f (hperm.mem_iff.mp hf)
  have hnonnil : pdfFilesFor outputPath candidates ≠ [] := by
    intro hnil
    exact hne (List.perm_nil.mp (hnil ▸ hperm).symm)
  have hfe : (pdfFilesFor outputPath candidates).isEmpty = false := by
    rw [Bool.eq_false_iff]
    intro h
    exact hnonnil (List.isEmpty_iff.mp h)
  refine ⟨hperm, ?_, ?_, ?_⟩
  · rw [pdfFilesFor, hfilter]
    exact List.sorted_insertionSort fileLe candidates
  · rw [compile_directory, hfe]
    simp only [Bool.false_eq_true, if_false]
    rw [compileLoop_all_nonempty (pageStep compress compressPage) _ _ _ hmem]
    simp
  · intro i hi
    rw [outlineFrom_get? _ 0 i hi]
    simp

/-- Closed witness for `compile_directory_sorted`: the spec's example,
`Zebra.pdf` with two pages and `apple.pdf` with one page. -/
theorem compile_directory_sorted_witness :
    List.Perm (pdfFilesFor (α := Nat) "/d/CombinedRealBook.pdf"
        [⟨"/d/Zebra.pdf", "Zebra", [200, 201]⟩, ⟨"/d/apple.pdf", "apple", [100]⟩])
      [⟨"/d/Zebra.pdf", "Zebra", [200, 201]⟩, ⟨"/d/apple.pdf", "apple", [100]⟩] ∧
    List.Sorted fileLe (pdfFilesFor (α := Nat) "/d/CombinedRealBook.pdf"
      [⟨"/d/Zebra.pdf", "Zebra", [200, 201]⟩, ⟨"/d/apple.pdf", "apple", [100]⟩]) ∧
    compile_directory false id "/d/CombinedRealBook.pdf"
        [⟨"/d/Zebra.pdf", "Zebra", [200, 201]⟩, ⟨"/d/apple.pdf", "apple", [100]⟩] =
      .written
        ((pdfFilesFor (α := Nat) "/d/CombinedRealBook.pdf"
            [⟨"/d/Zebra.pdf", "Zebra", [200, 201]⟩,
              ⟨"/d/apple.pdf", "apple", [100]⟩]).bind
          (fun f => f.pages.map (pageStep false id)))
        (outlineFrom 0 (pdfFilesFor (α := Nat) "/d/CombinedRealBook.pdf"
          [⟨"/d/Zebra.pdf", "Zebra", [200, 201]⟩,
            ⟨"/d/apple.pdf", "apple", [100]⟩])) ∧
    ∀ i (hi : i < (pdfFilesFor (α := Nat) "/d/CombinedRealBook.pdf"
        [⟨"/d/Zebra.pdf", "Zebra", [200, 201]⟩,
          ⟨"/d/apple.pdf", "apple", [100]⟩]).length),
      (outlineFrom 0 (pdfFilesFor (α := Nat) "/d/CombinedRealBook.pdf"
          [⟨"/d/Zebra.pdf", "Zebra", [200, 201]⟩,
            ⟨"/d/apple.pdf", "apple", [100]⟩])).get? i =
        some (((pdfFilesFor (α := Nat) "/d/CombinedRealBook.pdf"
            [⟨"/d/Zebra.pdf", "Zebra", [200, 201]⟩,
              ⟨"/d/apple.pdf", "apple", [100]⟩]).get ⟨i, hi⟩).stem,
          (((pdfFilesFor (α := Nat) "/d/CombinedRealBook.pdf"
              [⟨"/d/Zebra.pdf", "Zebra", [200, 201]⟩,
                ⟨"/d/apple.pdf", "apple", [100]⟩]).take i).bind
            (fun f => f.pages)).length) :=
  compile_directory_sorted false id "/d/CombinedRealBook.pdf"
    [⟨"/d/Zebra.pdf", "Zebra", [200, 201]⟩, ⟨"/d/apple.pdf", "apple", [100]⟩]
    (by decide) (by decide) (by decide)

/-- C6: any discovered file resolving to the output path is excluded
from the merge inputs, and adding such a file anywhere to the candidate
set leaves the compilation result unchanged — re-running compilation
over a directory containing a prior output never re-includes it. -/
theorem compile_directory_excludes_output {α : Type} (compress : Bool)
    (compressPage : α → α) (outputPath : String) (l₁ l₂ : List (PFile α))
    (prior : PFile α) (hp : prior.resolvedPath = outputPath) :
    (∀ (cands : List (PFile α)) (f : PFile α),
      f ∈ pdfFilesFor outputPath cands → f.resolvedPath ≠ outputPath) ∧
    compile_directory compress compressPage outputPath (l₁ ++ prior :: l₂) =
      compile_directory compress compressPage outputPath (l₁ ++ l₂) := by
  constructor
  · intro cands f hf
    have hmem : f ∈ cands.filter (fun c => c.resolvedPath != outputPath) :=
      (List.perm_insertionSort fileLe _).mem_iff.mp hf
    have := List.of_mem_filter hmem
    simpa using this
  · have hfilter : (l₁ ++ prior :: l₂).filter
        (fun c => c.resolvedPath != outputPath) =
        (l₁ ++ l₂).filter (fun c => c.resolvedPath != outputPath) := by
      rw [List.filter_append, List.filter_append, List.filter_cons]
      simp [hp]
    rw [compile_directory, compile_directory, pdfFilesFor, pdfFilesFor, hfilter]

/-- Closed witness for `compile_directory_excludes_output`: a prior
`CombinedRealBook.pdf` in the directory is ignored by a re-run. -/
theorem compile_directory_excludes_output_witness :
    (∀ (cands : List (PFile Nat)) (f : PFile Nat),
      f ∈ pdfFilesFor "/d/CombinedRealBook.pdf" cands →
        f.resolvedPath ≠ "/d/CombinedRealBook.pdf") ∧
    compile_directory false id "/d/CombinedRealBook.pdf"
        ([] ++ ⟨"/d/CombinedRealBook.pdf", "CombinedRealBook", [9]⟩ ::
          [⟨"/d/a.pdf", "a", [1]⟩]) =
      compile_directory false id "/d/CombinedRealBook.pdf"
        ([] ++ [⟨"/d/a.pdf", "a", [1]⟩]) :=
  compile_directory_excludes_output false id "/d/CombinedRealBook.pdf"
    [] [⟨"/d/a.pdf", "a", [1]⟩]
    ⟨"/d/CombinedRealBook.pdf", "CombinedRealBook", [9]⟩ rfl

/-- C5 (code bug): in `compile_directories`, one unreadable or
malformed file (`Aaa.pdf`, whose read raises) aborts the whole
directory's compilation — the error escapes `compile_directory` and is
only caught by the per-directory handler, so nothing is written and the
readable `Bbb.pdf` is not compiled — while the same directory without
the corrupt file compiles `Bbb.pdf` normally.  The spec instead
requires the corrupt file to be skipped like a zero-page file. -/
theorem compile_directories_corrupt_aborts_directory :
    compile_directories false id
        [("/d/out.pdf",
          [⟨"/d/Aaa.pdf", "Aaa", .error "PdfReadError"⟩,
            ⟨"/d/Bbb.pdf", "Bbb", .ok [1]⟩])] =
      [.failed "PdfReadError"] ∧
    compile_directories false id
        [("/d/out.pdf", [⟨"/d/Bbb.pdf", "Bbb", .ok [1]⟩])] =
      [.done (.written [1] [("Bbb", 0)])] := by
  exact ⟨rfl, rfl⟩

end SplitRealBooks
